import Mathlib

/-!
Verification of the statistical core of the gammapy data-analysis toolkit:
the `Dataset`/`Datasets` aggregation layer (`gammapy/datasets/core.py`) and
the parameter `Covariance` bookkeeping (`gammapy/modeling/covariance.py`).

The Python code is shallowly embedded: numpy arrays of statistics become
lists of rationals, dense covariance matrices become functions
`Nat → Nat → ℚ` read on `[0, n)`, raised Python exceptions become an
explicit `PyErr` value, and float64 arithmetic is modelled by exact
rational/real arithmetic (with the IEEE special values produced by
division by zero made explicit where the code depends on them).
-/

/-- A raised Python exception: its class name and its message. -/
structure PyErr where
  kind : String
  msg : String
deriving DecidableEq, Repr

/-- A concrete stand-in for the abstract `Dataset` contract of
`gammapy/datasets/core.py`: `stat_array()` is the per-point statistic
array a concrete subclass would compute, `mask_fit`/`mask_safe` are the
optional boolean masks. -/
structure DatasetM where
  name : String
  stat_array : List ℚ
  mask_fit : Option (List Bool)
  mask_safe : Option (List Bool)
deriving DecidableEq, Repr

/-- `Dataset.mask`: `mask_safe & mask_fit` when both are present, else
whichever is present, else `None` (elementwise boolean and). -/
def DatasetM.mask (d : DatasetM) : Option (List Bool) :=
  match d.mask_safe, d.mask_fit with
  | some s, some f => some (List.zipWith (fun a b => a && b) s f)
  | none, some f => some f
  | some s, none => some s
  | none, none => none

/-- Numpy boolean-mask indexing `stat[mask]`: keep the entries at the
positions where the mask is `true`. -/
def boolSelect (xs : List ℚ) (mask : List Bool) : List ℚ :=
  (xs.zip mask).filterMap (fun p => if p.2 then some p.1 else none)

/-- `Dataset.stat_sum`: sum the statistic array, restricted by the
combined mask when one is present. -/
def DatasetM.stat_sum (d : DatasetM) : ℚ :=
  match d.mask with
  | some m => (boolSelect d.stat_array m).sum
  | none => d.stat_array.sum

/-- `Datasets.names`: the contained datasets' names in order. -/
def datasetsNames (D : List DatasetM) : List String :=
  D.map (fun d => d.name)

/-- The `unique_names` loop of `Datasets.__init__`: walk the datasets,
raising `ValueError` at the first name already seen. -/
def checkUniqueNames : List DatasetM → List String → Except PyErr Unit
  | [], _ => .ok ()
  | d :: rest, seen =>
    if d.name ∈ seen then .error ⟨("ValueError"), ("Dataset names must be unique")⟩
    else checkUniqueNames rest (seen ++ [d.name])

/-- The possible arguments of `Datasets.__init__`: `None`, a single
`Dataset`, a list of `Dataset`, another `Datasets`, or anything else. -/
inductive DatasetsInput where
  | noneInput : DatasetsInput
  | single : DatasetM → DatasetsInput
  | list : List DatasetM → DatasetsInput
  | datasets : List DatasetM → DatasetsInput
  | other : DatasetsInput
deriving DecidableEq, Repr

/-- `Datasets.__init__`: normalize the argument to a list (rejecting
invalid types with `TypeError`), then enforce name uniqueness before
storing the list. -/
def datasetsInit (input : DatasetsInput) : Except PyErr (List DatasetM) :=
  match input with
  | .other => .error ⟨("TypeError"), ("Invalid type")⟩
  | .noneInput =>
    match checkUniqueNames [] [] with
    | .error e => .error e
    | .ok _ => .ok []
  | .single d =>
    match checkUniqueNames [d] [] with
    | .error e => .error e
    | .ok _ => .ok [d]
  | .list l =>
    match checkUniqueNames l [] with
    | .error e => .error e
    | .ok _ => .ok l
  | .datasets D =>
    match checkUniqueNames D [] with
    | .error e => .error e
    | .ok _ => .ok D

/-- `Datasets.insert`: the duplicate-name check precedes the list
mutation, so on failure the collection is returned unchanged together
with the raised error.  (Python's `list.insert` clamps the position.) -/
def datasetsInsert (D : List DatasetM) (idx : Nat) (d : DatasetM) :
    List DatasetM × Option PyErr :=
  if d.name ∈ datasetsNames D then
    (D, some ⟨("ValueError"), ("Dataset names must be unique")⟩)
  else
    (D.insertIdx (min idx D.length) d, none)

/-- `Datasets.__setitem__` with an integer key: the duplicate-name check
precedes the assignment, so on failure the collection is returned
unchanged together with the raised error. -/
def datasetsSetItem (D : List DatasetM) (key : Nat) (d : DatasetM) :
    List DatasetM × Option PyErr :=
  if d.name ∈ datasetsNames D then
    (D, some ⟨("ValueError"), ("Dataset names must be unique")⟩)
  else
    (D.set key d, none)

/-- `Datasets.stat_sum`: the serial accumulation loop
`stat_sum = 0; for dataset in self: stat_sum += dataset.stat_sum()`. -/
def datasetsStatSum (D : List DatasetM) : ℚ :=
  D.foldl (fun acc d => acc + d.stat_sum) 0

/-- `Dataset._compute_residuals`: elementwise residuals of data against
model for the three supported methods, `AttributeError` otherwise.  The
error message interpolates `{method!r}` as Python `repr` does. -/
noncomputable def compute_residuals (data model : List ℝ) (method : String) :
    Except PyErr (List ℝ) :=
  if method = "diff" then
    .ok (List.zipWith (fun d m => d - m) data model)
  else if method = "diff/model" then
    .ok (List.zipWith (fun d m => (d - m) / m) data model)
  else if method = "diff/sqrt(model)" then
    .ok (List.zipWith (fun d m => (d - m) / Real.sqrt m) data model)
  else
    .error ⟨("AttributeError"),
      ("Invalid method: " ++ "'" ++ method ++ "'" ++
        ". Choose between 'diff', 'diff/model' and 'diff/sqrt(model)'")⟩

/-- A model object as seen by `Dataset.copy`: its `_name` and its
optional `datasets_names` list of back-references to dataset names. -/
structure SModel where
  name : String
  datasets_names : Option (List String)
deriving DecidableEq, Repr, Inhabited

/-- A dataset whose models live in a shared store (Python heap): the
`models` field holds store indices, `background_model` the index of the
dataset-owned background model when the attribute exists. -/
structure HDataset where
  name : String
  models : Option (List Nat)
  background_model : Option Nat
deriving DecidableEq, Repr

/-- The per-model rewiring pass of `Dataset.copy`: when `datasets_names`
is present, rewrite every entry equal to the old dataset name to the new
one, and rename the copied background model to `"<new_name>-bkg"`. -/
def rewireModel (oldName newName : String) (isBackground : Bool) (m : SModel) : SModel :=
  match m.datasets_names with
  | none => m
  | some ds =>
    let m1 : SModel :=
      { m with datasets_names := some (ds.map (fun d => if d = oldName then newName else d)) }
    if isBackground then { m1 with name := newName ++ "-bkg" } else m1

/-- `Dataset.copy(name)`: deep-copy the dataset — fresh model objects are
allocated at the end of the store — then rewrite the copies' back
references from the old name to the new one.  `make_name` is modelled as
returning the caller-supplied new name.  The original dataset and the
store entries it references are values the function never rewrites. -/
def datasetCopy (store : List SModel) (d : HDataset) (newName : String) :
    List SModel × HDataset :=
  match d.models with
  | none => (store, { d with name := newName })
  | some ids =>
    let base := store.length
    let rewired := ids.map (fun i =>
      rewireModel d.name newName (d.background_model = some i) (store.getD i default))
    (store ++ rewired,
      { name := newName,
        models := some ((List.range ids.length).map (fun k => base + k)),
        background_model := d.background_model.bind (fun b =>
          if b ∈ ids then some (base + ids.indexOf b) else none) })

/-- A fit parameter of the owning pool (`gammapy/modeling/parameter.py`
is not part of the staged sources; the pool itself is modelled from the
spec).  `uid` models Python object identity. -/
structure Param where
  uid : Nat
  error : ℚ
  scale : ℚ
  frozen : Bool
deriving DecidableEq, Repr, Inhabited

/-- Modelled from the spec: `Parameters.index`, "index lookup by
identity" — the position of the first pool entry that is the same
object. -/
def paramIndex (pool : List Param) (p : Param) : Nat :=
  pool.findIdx (fun q => q.uid == p.uid)

/-- Modelled from the spec: `Parameters.from_stack`, "concatenates
multiple pools while preserving per-pool order and merging shared
references" — append each parameter unless the same object was already
taken. -/
def paramsFromStack (pools : List (List Param)) : List Param :=
  pools.flatten.foldl
    (fun acc p => if acc.any (fun q => q.uid == p.uid) then acc else acc ++ [p]) []

/-- `Covariance`: a parameter pool and a dense matrix aligned with it,
read on indices below the pool length. -/
structure CovarianceM where
  parameters : List Param
  data : Nat → Nat → ℚ

/-- `Covariance.__init__` with `data=None`: the default matrix
`np.diag([p.error ** 2 for p in parameters])`. -/
def covarianceInit (parameters : List Param) : CovarianceM :=
  { parameters := parameters,
    data := fun i j =>
      if i = j ∧ i < parameters.length then ((parameters.getD i default).error) ^ 2 else 0 }

/-- `np.allclose(A, B)` on `m × m` blocks, with numpy's default
tolerances `rtol = 1e-5`, `atol = 1e-8`:
all entries satisfy `|a - b| ≤ atol + rtol * |b|`. -/
def allclose (m : Nat) (A B : Nat → Nat → ℚ) : Bool :=
  (List.range m).all (fun i => (List.range m).all (fun j =>
    decide (|A i j - B i j| ≤ 1 / 100000000 + 1 / 100000 * |B i j|)))

/-- `Covariance.get_subcovariance`: project the dense matrix onto the
requested parameters' current indices in the owning pool. -/
def get_subcovariance (c : CovarianceM) (params : List Param) : CovarianceM :=
  let idx := params.map (fun p => paramIndex c.parameters p)
  { parameters := params,
    data := fun a b => c.data (idx.getD a 0) (idx.getD b 0) }

/-- `idx = [self.parameters.index(par) for par in covar.parameters]`:
the incoming parameters' positions in the owning pool. -/
def subIndices (c s : CovarianceM) : List Nat :=
  s.parameters.map (fun p => paramIndex c.parameters p)

/-- The guard `np.allclose(self.data[np.ix_(idx, idx)], covar.data)` of
`set_subcovariance`. -/
def subBlockClose (c s : CovarianceM) : Bool :=
  allclose s.parameters.length
    (fun a b => c.data ((subIndices c s).getD a 0) ((subIndices c s).getD b 0))
    s.data

/-- `Covariance.set_subcovariance`: locate the incoming parameters'
indices `idx`; unless the current `idx × idx` block already matches the
incoming data within `np.allclose` tolerance, zero the full rows and
columns at `idx`; then write the incoming data into the `idx × idx`
block (`self._data[np.ix_(idx, idx)] = covar.data`). -/
def set_subcovariance (c s : CovarianceM) : CovarianceM :=
  let idx := subIndices c s
  let close := subBlockClose c s
  let zeroed : Nat → Nat → ℚ := fun i j =>
    if close then c.data i j
    else if i ∈ idx ∨ j ∈ idx then 0 else c.data i j
  { parameters := c.parameters,
    data := fun i j =>
      if i ∈ idx ∧ j ∈ idx then s.data (idx.indexOf i) (idx.indexOf j)
      else zeroed i j }

/-- `Covariance.from_stack`: build the union pool by parameter-pool
stacking, start from the default covariance over it, then apply
`set_subcovariance` for each sub-covariance in list order. -/
def covarianceFromStack (covar_list : List CovarianceM) : CovarianceM :=
  let parameters := paramsFromStack (covar_list.map (fun c => c.parameters))
  covar_list.foldl set_subcovariance (covarianceInit parameters)

/-- The claim's reading of `Covariance.from_stack`: identical, except
that the accumulation starts from an all-zero matrix over the stacked
pool rather than from the default diagonal of squared errors. -/
def covarianceFromStackZeroInit (covar_list : List CovarianceM) : CovarianceM :=
  let parameters := paramsFromStack (covar_list.map (fun c => c.parameters))
  covar_list.foldl set_subcovariance { parameters := parameters, data := fun _ _ => 0 }

/-- The per-parameter freedom flags `~np.array([par.frozen for par in
parameters])`. -/
def freeFlags (parameters : List Param) : List Bool :=
  parameters.map (fun p => !p.frozen)

/-- The number of free (non-frozen) parameters of a pool. -/
def nFree (parameters : List Param) : Nat :=
  (freeFlags parameters).count true

/-- The number of free parameters strictly before position `i`: the row
and column a free parameter occupies in the reduced factor matrix. -/
def freeRank (parameters : List Param) (i : Nat) : Nat :=
  ((freeFlags parameters).take i).count true

/-- One row of the boolean-mask assignment
`matrix_expanded[free_parameters] = matrix.ravel()`: walk the column
flags; at a position whose row and column are both free consume the next
ravel entry, elsewhere leave the zero; return the row and the unconsumed
ravel suffix. -/
def fillRow : Bool → List Bool → List ℚ → List ℚ × List ℚ
  | _, [], rav => ([], rav)
  | fr, c :: cs, rav =>
    if fr && c then
      let rest := fillRow fr cs rav.tail
      (rav.headD 0 :: rest.1, rest.2)
    else
      let rest := fillRow fr cs rav
      (0 :: rest.1, rest.2)

/-- All rows of the boolean-mask assignment: thread the ravel through
the rows in row-major order. -/
def fillRows : List Bool → List Bool → List ℚ → List (List ℚ)
  | [], _, _ => []
  | fr :: frs, cols, rav =>
    let pr := fillRow fr cols rav
    pr.1 :: fillRows frs cols pr.2

/-- `Covariance._expand_factor_matrix`: start from an `npars × npars`
zero matrix and assign the row-major ravel of the reduced matrix to the
positions whose row and column parameters are both free. -/
def expand_factor_matrix (matrix : List (List ℚ)) (parameters : List Param) :
    List (List ℚ) :=
  fillRows (freeFlags parameters) (freeFlags parameters) matrix.flatten

/-- `Covariance.from_factor_matrix`: expand the matrix when its shape is
not `(npars, npars)`, then rescale elementwise by the outer product of
the parameter scales (`data = scale_matrix * matrix`). -/
def from_factor_matrix (parameters : List Param) (matrix : List (List ℚ)) :
    CovarianceM :=
  let npars := parameters.length
  let m :=
    if matrix.length = npars ∧ matrix.all (fun r => decide (r.length = npars)) then matrix
    else expand_factor_matrix matrix parameters
  { parameters := parameters,
    data := fun i j =>
      (parameters.getD i default).scale * (parameters.getD j default).scale *
        ((m.getD i []).getD j 0) }

/-- The largest finite float64, `np.finfo(np.float64).max`: the value
`np.nan_to_num` substitutes for `+inf`. -/
noncomputable def maxFloat64 : ℝ := 17976931348623157 * 10 ^ 292

/-- Float64 division followed by `np.nan_to_num`: a zero denominator
yields NaN (replaced by `0`) when the numerator is zero and `±inf`
(replaced by `±maxFloat64`) otherwise; a nonzero denominator divides
exactly. -/
noncomputable def divNanToNum (num den : ℝ) : ℝ :=
  if den = 0 then (if num = 0 then 0 else if 0 < num then maxFloat64 else -maxFloat64)
  else num / den

/-- `Covariance.correlation`:
`np.nan_to_num(self.data / np.outer(err, err))` with
`err = np.sqrt(np.diag(self.data))`, entry by entry. -/
noncomputable def correlation (c : CovarianceM) (i j : Nat) : ℝ :=
  divNanToNum (c.data i j)
    (Real.sqrt (c.data i i) * Real.sqrt (c.data j j))

/-- A concrete three-parameter covariance (default diagonal data) used
to exercise the sub-covariance operations. -/
def cW3 : CovarianceM :=
  covarianceInit [⟨0, 1, 1, false⟩, ⟨1, 2, 1, false⟩, ⟨2, 3, 1, false⟩]

/-- A concrete sub-covariance over the third and first parameters of
`cW3`. -/
def sW3 : CovarianceM :=
  { parameters := [⟨2, 3, 1, false⟩, ⟨0, 1, 1, false⟩],
    data := fun a b => (([[7, 8], [8, 5]] : List (List ℚ)).getD a []).getD b 0 }

/-- A concrete sub-covariance over parameters 0, 1 with a nonzero cross
term. -/
def s1C5 : CovarianceM :=
  { parameters := [⟨0, 0, 1, false⟩, ⟨1, 0, 1, false⟩],
    data := fun a b => (([[1, 5], [5, 2]] : List (List ℚ)).getD a []).getD b 0 }

/-- A concrete sub-covariance over parameters 1, 2 whose data coincides
with the default diagonal of squared errors on parameter 2. -/
def s2C5 : CovarianceM :=
  { parameters := [⟨1, 0, 1, false⟩, ⟨2, 3, 1, false⟩],
    data := fun a b => (([[2, 0], [0, 9]] : List (List ℚ)).getD a []).getD b 0 }

/-- A concrete two-parameter sub-covariance over fresh parameters 0, 1. -/
def s1W5 : CovarianceM :=
  { parameters := [⟨0, 1, 1, false⟩, ⟨1, 2, 1, false⟩],
    data := fun a b => (([[1, 2], [2, 3]] : List (List ℚ)).getD a []).getD b 0 }

/-- A concrete three-parameter sub-covariance over fresh parameters
2, 3, 4, disjoint from `s1W5`. -/
def s2W5 : CovarianceM :=
  { parameters := [⟨2, 1, 1, false⟩, ⟨3, 1, 1, false⟩, ⟨4, 1, 1, false⟩],
    data := fun a b => (([[5, 0, 0], [0, 6, 0], [0, 0, 7]] : List (List ℚ)).getD a []).getD b 0 }

/-- A concrete covariance whose first parameter has zero variance but a
nonzero covariance with the second: its correlation divides a nonzero
numerator by zero. -/
def cE8 : CovarianceM :=
  { parameters := [⟨0, 0, 1, false⟩, ⟨1, 1, 1, false⟩],
    data := fun i j => (([[0, 1], [1, 1]] : List (List ℚ)).getD i []).getD j 0 }

/-- A concrete covariance with one positive-variance and one
zero-variance parameter, the off entries zero. -/
def cW8 : CovarianceM :=
  { parameters := [⟨0, 2, 1, false⟩, ⟨1, 0, 1, false⟩],
    data := fun i j => (([[4, 0], [0, 0]] : List (List ℚ)).getD i []).getD j 0 }

/-- A concrete pool of three parameters whose middle one is frozen. -/
def pW4 : List Param := [⟨0, 1, 2, false⟩, ⟨1, 1, 3, true⟩, ⟨2, 1, 5, false⟩]

/-- A concrete reduced 2×2 factor matrix over the free parameters of
`pW4`. -/
def mW4 : List (List ℚ) := [[1, 2], [3, 4]]

theorem foldl_add_sum (f : DatasetM → ℚ) :
    ∀ (D : List DatasetM) (acc : ℚ),
      D.foldl (fun a d => a + f d) acc = acc + (D.map f).sum := by
  intro D
  induction D with
  | nil => intro acc; simp
  | cons d rest ih => intro acc; simp [ih]; ring

/-- C1: for every `Datasets` collection `D`, `D.stat_sum()` equals the
sum of `d.stat_sum()` over the contained datasets `d`, accumulated
serially in insertion order starting from zero. -/
theorem C1_datasets_stat_sum_serial (D : List DatasetM) :
    datasetsStatSum D = (D.map DatasetM.stat_sum).sum := by
  simpa [datasetsStatSum] using foldl_add_sum DatasetM.stat_sum D 0

/-- C10: a `Datasets` collection constructed with no argument is empty,
and `stat_sum()` on an empty collection returns `0`. -/
theorem C10_empty_datasets :
    datasetsInit DatasetsInput.noneInput = Except.ok [] ∧ datasetsStatSum [] = 0 :=
  ⟨rfl, rfl⟩

/-- C6: for every `Dataset` `d`, `d.stat_sum()` is the sum of the
entries of `d.stat_array()` selected by `d.mask` when the mask is
present, and the sum over all entries when it is `None`. -/
theorem C6_dataset_stat_sum (d : DatasetM) :
    (∀ m, d.mask = some m → d.stat_sum = (boolSelect d.stat_array m).sum) ∧
    (d.mask = none → d.stat_sum = d.stat_array.sum) := by
  constructor
  · intro m hm; simp [DatasetM.stat_sum, hm]
  · intro hm; simp [DatasetM.stat_sum, hm]

theorem C6_dataset_stat_sum_witness :
    (⟨"d1", [1, 2, 3], some [true, false, true], none⟩ : DatasetM).mask =
      some [true, false, true] ∧
    (⟨"d1", [1, 2, 3], some [true, false, true], none⟩ : DatasetM).stat_sum =
      (boolSelect [1, 2, 3] [true, false, true]).sum :=
  ⟨rfl, (C6_dataset_stat_sum _).1 _ rfl⟩

theorem checkUniqueNames_cases :
    ∀ (l : List DatasetM) (seen : List String),
      checkUniqueNames l seen = Except.ok () ∨
      checkUniqueNames l seen =
        Except.error ⟨("ValueError"), ("Dataset names must be unique")⟩ := by
  intro l
  induction l with
  | nil => intro seen; left; rfl
  | cons d rest ih =>
    intro seen
    by_cases h : d.name ∈ seen
    · right; simp [checkUniqueNames, h]
    · simpa [checkUniqueNames, h] using ih (seen ++ [d.name])

theorem checkUniqueNames_ok_nodup :
    ∀ (l : List DatasetM) (seen : List String),
      checkUniqueNames l seen = Except.ok () →
      (datasetsNames l).Nodup ∧ ∀ n ∈ datasetsNames l, n ∉ seen := by
  intro l
  induction l with
  | nil => intro seen _; simp [datasetsNames]
  | cons d rest ih =>
    intro seen hok
    by_cases h : d.name ∈ seen
    · simp [checkUniqueNames, h] at hok
    · simp only [checkUniqueNames, h, if_false] at hok
      obtain ⟨hnd, hmem⟩ := ih (seen ++ [d.name]) hok
      have hdn : d.name ∉ datasetsNames rest := by
        intro hd
        exact (hmem d.name hd) (by simp)
      constructor
      · have hgoal : datasetsNames (d :: rest) = d.name :: datasetsNames rest := rfl
        rw [hgoal]
        exact List.nodup_cons.mpr ⟨hdn, hnd⟩
      · intro n hn
        simp only [datasetsNames, List.map_cons, List.mem_cons] at hn
        rcases hn with rfl | hn
        · exact h
        · intro hns
          exact (hmem n hn) (by simp [hns])

/-- C2: constructing a `Datasets` from a list containing a dataset whose
name collides with an earlier one, inserting such a dataset, or setting
an item to one, fails with `ValueError("Dataset names must be unique")`,
and the collection's length and names after the failed insert/set are
exactly what they were before the call. -/
theorem C2_duplicate_name_rejected (D : List DatasetM) (d : DatasetM) (idx key : Nat)
    (h : d.name ∈ datasetsNames D) :
    datasetsInit (DatasetsInput.list (D ++ [d])) =
      Except.error ⟨("ValueError"), ("Dataset names must be unique")⟩ ∧
    datasetsInsert D idx d =
      (D, some ⟨("ValueError"), ("Dataset names must be unique")⟩) ∧
    datasetsSetItem D key d =
      (D, some ⟨("ValueError"), ("Dataset names must be unique")⟩) ∧
    (datasetsInsert D idx d).1.length = D.length ∧
    datasetsNames (datasetsInsert D idx d).1 = datasetsNames D ∧
    (datasetsSetItem D key d).1.length = D.length ∧
    datasetsNames (datasetsSetItem D key d).1 = datasetsNames D := by
  have hnotok : checkUniqueNames (D ++ [d]) [] ≠ Except.ok () := by
    intro hok
    have hnd := (checkUniqueNames_ok_nodup (D ++ [d]) [] hok).1
    have hnd2 : (datasetsNames D ++ [d.name]).Nodup := by
      simpa [datasetsNames] using hnd
    rcases List.nodup_append.mp hnd2 with ⟨-, -, hdisj⟩
    exact hdisj h (by simp)
  have herr : checkUniqueNames (D ++ [d]) [] =
      Except.error ⟨("ValueError"), ("Dataset names must be unique")⟩ := by
    rcases checkUniqueNames_cases (D ++ [d]) [] with hok | herr
    · exact absurd hok hnotok
    · exact herr
  refine ⟨?_, ?_, ?_, ?_, ?_, ?_, ?_⟩
  · simp [datasetsInit, herr]
  · simp [datasetsInsert, h]
  · simp [datasetsSetItem, h]
  · simp [datasetsInsert, h]
  · simp [datasetsInsert, h]
  · simp [datasetsSetItem, h]
  · simp [datasetsSetItem, h]

theorem C2_duplicate_name_rejected_witness :
    ((⟨"a", [2], none, none⟩ : DatasetM).name ∈
      datasetsNames [⟨"a", [], none, none⟩]) ∧
    datasetsInit (DatasetsInput.list ([⟨"a", [], none, none⟩] ++ [⟨"a", [2], none, none⟩])) =
      Except.error ⟨("ValueError"), ("Dataset names must be unique")⟩ :=
  ⟨by decide,
    (C2_duplicate_name_rejected [⟨"a", [], none, none⟩] ⟨"a", [2], none, none⟩ 0 0
      (by decide)).1⟩

/-- C7: `_compute_residuals` returns `data - model`,
`(data - model) / model` and `(data - model) / sqrt(model)` for the
three valid methods, and for any other method fails with an error whose
message names the bad method value and lists the valid choices. -/
theorem C7_compute_residuals (data model : List ℝ) (method : String) :
    (method = "diff" →
      compute_residuals data model method =
        Except.ok (List.zipWith (fun d m => d - m) data model)) ∧
    (method = "diff/model" →
      compute_residuals data model method =
        Except.ok (List.zipWith (fun d m => (d - m) / m) data model)) ∧
    (method = "diff/sqrt(model)" →
      compute_residuals data model method =
        Except.ok (List.zipWith (fun d m => (d - m) / Real.sqrt m) data model)) ∧
    (method ∉ ["diff", "diff/model", "diff/sqrt(model)"] →
      compute_residuals data model method =
        Except.error ⟨("AttributeError"),
          ("Invalid method: " ++ "'" ++ method ++ "'" ++
            ". Choose between 'diff', 'diff/model' and 'diff/sqrt(model)'")⟩) := by
  refine ⟨?_, ?_, ?_, ?_⟩
  · intro h; simp [compute_residuals, h]
  · intro h; simp [compute_residuals, h]
  · intro h; simp [compute_residuals, h]
  · intro h
    have h1 : method ≠ "diff" := fun he => h (by simp [he])
    have h2 : method ≠ "diff/model" := fun he => h (by simp [he])
    have h3 : method ≠ "diff/sqrt(model)" := fun he => h (by simp [he])
    simp [compute_residuals, h1, h2, h3]

theorem C7_compute_residuals_witness :
    (("foo" : String) ∉ ["diff", "diff/model", "diff/sqrt(model)"]) ∧
    compute_residuals [] [] "foo" =
      Except.error ⟨("AttributeError"),
        ("Invalid method: " ++ "'" ++ "foo" ++ "'" ++
          ". Choose between 'diff', 'diff/model' and 'diff/sqrt(model)'")⟩ :=
  ⟨by decide, (C7_compute_residuals [] [] "foo").2.2.2 (by decide)⟩

/-- C9: `Dataset.copy(name)` leaves the original unchanged: every store
entry that existed before the call — in particular every model the
original dataset references — is exactly the same afterwards; renaming
and `datasets_names` rewiring happen only on the freshly allocated
copies. -/
theorem C9_copy_preserves_original (store : List SModel) (d : HDataset) (newName : String) :
    (∀ i, i < store.length →
      (datasetCopy store d newName).1.getD i default = store.getD i default) ∧
    (∀ ids, d.models = some ids → ∀ i ∈ ids, i < store.length →
      ((datasetCopy store d newName).1.getD i default).datasets_names =
        (store.getD i default).datasets_names) := by
  have hpre : ∀ i, i < store.length →
      (datasetCopy store d newName).1.getD i default = store.getD i default := by
    intro i hi
    cases hm : d.models with
    | none => simp [datasetCopy, hm]
    | some ids =>
      simp only [datasetCopy, hm]
      exact List.getD_append store _ default i hi
  exact ⟨hpre, fun ids _ i _ hi => by rw [hpre i hi]⟩

theorem paramIndex_spec :
    ∀ (pool : List Param) (p : Param), p.uid ∈ pool.map Param.uid →
      paramIndex pool p < pool.length ∧
      (pool.getD (paramIndex pool p) default).uid = p.uid := by
  intro pool
  induction pool with
  | nil => intro p hp; simp at hp
  | cons q rest ih =>
    intro p hp
    by_cases h : q.uid = p.uid
    · refine ⟨?_, ?_⟩
      · simp [paramIndex, List.findIdx_cons, h]
      · simp [paramIndex, List.findIdx_cons, h]
    · have hp2 : p.uid ∈ rest.map Param.uid := by
        rcases List.mem_cons.mp hp with heq | hmem
        · exact absurd heq.symm h
        · exact hmem
      have hrest := ih p hp2
      have hbeq : (q.uid == p.uid) = false := by simpa using h
      have hstep : paramIndex (q :: rest) p = paramIndex rest p + 1 := by
        simp [paramIndex, List.findIdx_cons, hbeq]
      refine ⟨?_, ?_⟩
      · rw [hstep]; simpa using hrest.1
      · rw [hstep, List.getD_cons_succ]; exact hrest.2

theorem subIndices_length (c s : CovarianceM) :
    (subIndices c s).length = s.parameters.length := by
  simp [subIndices]

theorem subIndices_nodup (c s : CovarianceM)
    (hs : (s.parameters.map Param.uid).Nodup)
    (hsub : ∀ p ∈ s.parameters, p.uid ∈ c.parameters.map Param.uid) :
    (subIndices c s).Nodup := by
  refine List.Nodup.map_on ?_ (hs.of_map _)
  intro x hx y hy hxy
  have hxs := paramIndex_spec c.parameters x (hsub x hx)
  have hys := paramIndex_spec c.parameters y (hsub y hy)
  have huid : x.uid = y.uid := by rw [← hxs.2, ← hys.2, hxy]
  exact List.inj_on_of_nodup_map hs hx hy huid

/-- C3: after `C.set_subcovariance(S)` — with `S`'s parameters all in
`C`'s pool — the sub-block of the matrix at `S`'s parameter indices
equals `S.data`; when the prior sub-block was not `np.allclose` to
`S.data`, the full rows and columns at those indices are zero outside
the sub-block; when it was, every entry outside the sub-block is
unchanged. -/
theorem C3_set_subcovariance (c s : CovarianceM)
    (hs : (s.parameters.map Param.uid).Nodup)
    (hsub : ∀ p ∈ s.parameters, p.uid ∈ c.parameters.map Param.uid) :
    (∀ a b, a < s.parameters.length → b < s.parameters.length →
      (set_subcovariance c s).data ((subIndices c s).getD a 0) ((subIndices c s).getD b 0) =
        s.data a b) ∧
    (subBlockClose c s = false →
      ∀ i j, i ∈ subIndices c s → j ∉ subIndices c s →
        (set_subcovariance c s).data i j = 0 ∧ (set_subcovariance c s).data j i = 0) ∧
    (subBlockClose c s = true →
      ∀ i j, ¬(i ∈ subIndices c s ∧ j ∈ subIndices c s) →
        (set_subcovariance c s).data i j = c.data i j) := by
  have hnd : (subIndices c s).Nodup := subIndices_nodup c s hs hsub
  refine ⟨?_, ?_, ?_⟩
  · intro a b ha hb
    have hla : a < (subIndices c s).length := by rw [subIndices_length]; exact ha
    have hlb : b < (subIndices c s).length := by rw [subIndices_length]; exact hb
    have hga : (subIndices c s).getD a 0 = (subIndices c s)[a] :=
      List.getD_eq_getElem _ _ hla
    have hgb : (subIndices c s).getD b 0 = (subIndices c s)[b] :=
      List.getD_eq_getElem _ _ hlb
    have hma : (subIndices c s)[a] ∈ subIndices c s := List.getElem_mem hla
    have hmb : (subIndices c s)[b] ∈ subIndices c s := List.getElem_mem hlb
    simp only [set_subcovariance, hga, hgb]
    rw [if_pos ⟨hma, hmb⟩, List.indexOf_getElem hnd a hla, List.indexOf_getElem hnd b hlb]
  · intro hcl i j hi hj
    constructor
    · simp only [set_subcovariance]
      rw [if_neg (fun hc => hj hc.2)]
      simp [hcl, hi]
    · simp only [set_subcovariance]
      rw [if_neg (fun hc => hj hc.1)]
      simp [hcl, hi]
  · intro hcl i j hnot
    simp only [set_subcovariance]
    rw [if_neg hnot]
    simp [hcl]

theorem C3_set_subcovariance_witness :
    ((sW3.parameters.map Param.uid).Nodup) ∧
    (∀ p ∈ sW3.parameters, p.uid ∈ cW3.parameters.map Param.uid) ∧
    (∀ a b, a < sW3.parameters.length → b < sW3.parameters.length →
      (set_subcovariance cW3 sW3).data
          ((subIndices cW3 sW3).getD a 0) ((subIndices cW3 sW3).getD b 0) =
        sW3.data a b) :=
  ⟨by decide, by decide, (C3_set_subcovariance cW3 sW3 (by decide) (by decide)).1⟩

theorem C9_copy_preserves_original_witness :
    (0 < [(⟨"m", some ["x"]⟩ : SModel)].length) ∧
    (datasetCopy [⟨"m", some ["x"]⟩] ⟨"x", some [0], none⟩ "y").1.getD 0 default =
      [(⟨"m", some ["x"]⟩ : SModel)].getD 0 default :=
  ⟨by decide,
    (C9_copy_preserves_original [⟨"m", some ["x"]⟩] ⟨"x", some [0], none⟩ "y").1 0
      (by decide)⟩

theorem set_subcovariance_params (c s : CovarianceM) :
    (set_subcovariance c s).parameters = c.parameters := rfl

theorem set_subcovariance_data (c s : CovarianceM) (i j : Nat) :
    (set_subcovariance c s).data i j =
      if i ∈ subIndices c s ∧ j ∈ subIndices c s then
        s.data ((subIndices c s).indexOf i) ((subIndices c s).indexOf j)
      else if subBlockClose c s then c.data i j
      else if i ∈ subIndices c s ∨ j ∈ subIndices c s then 0 else c.data i j := rfl

/-- C5 counterexample: the claim says `from_stack` accumulates the
sub-covariances into a zero covariance over the stacked pool, but the
code starts from the default covariance (diagonal of squared parameter
errors); at this concrete input the two procedures disagree at entry
(0, 1), so the claim as stated is false of the code. -/
theorem C5_counterexample_zero_init :
    (covarianceFromStack [s1C5, s2C5]).data 0 1 = 5 ∧
    (covarianceFromStackZeroInit [s1C5, s2C5]).data 0 1 = 0 := by
  constructor <;>
  · norm_num [covarianceFromStack, covarianceFromStackZeroInit, set_subcovariance,
      subBlockClose, subIndices, allclose, paramsFromStack, covarianceInit, paramIndex,
      s1C5, s2C5, List.range_succ, List.findIdx_cons, List.indexOf_cons, cond_eq_if,
      beq_iff_eq]

/-- C5 (amended): `from_stack` builds the union pool by pool-stacking,
constructs the default covariance (diagonal of squared parameter
errors) over it, then applies `set_subcovariance` for each
sub-covariance in list order; for two sub-covariances over disjoint
parameter sets of sizes 2 and 3 the result is a 5×5 block-diagonal
matrix with off-block entries exactly 0. -/
theorem C5_from_stack_amended (s1 s2 : CovarianceM)
    (h1 : s1.parameters.length = 2) (h2 : s2.parameters.length = 3)
    (hn : ((s1.parameters ++ s2.parameters).map Param.uid).Nodup) :
    covarianceFromStack [s1, s2] =
      set_subcovariance
        (set_subcovariance
          (covarianceInit (paramsFromStack [s1.parameters, s2.parameters])) s1) s2 ∧
    (covarianceFromStack [s1, s2]).parameters = s1.parameters ++ s2.parameters ∧
    (∀ i j, i < 5 → j < 5 →
      (covarianceFromStack [s1, s2]).data i j =
        if i < 2 ∧ j < 2 then s1.data i j
        else if 2 ≤ i ∧ 2 ≤ j then s2.data (i - 2) (j - 2)
        else 0) := by
  obtain ⟨a, b, hP1⟩ := List.length_eq_two.mp h1
  obtain ⟨c, d, e, hP2⟩ := List.length_eq_three.mp h2
  rw [hP1, hP2] at hn
  simp only [List.cons_append, List.nil_append, List.map_cons, List.map_nil,
    List.nodup_cons, List.mem_cons, List.mem_singleton, List.not_mem_nil,
    List.mem_map, List.nodup_nil] at hn
  have hab : a.uid ≠ b.uid := fun h => hn.1 (Or.inl h)
  have hac : a.uid ≠ c.uid := fun h => hn.1 (Or.inr (Or.inl h))
  have had : a.uid ≠ d.uid := fun h => hn.1 (Or.inr (Or.inr (Or.inl h)))
  have hae : a.uid ≠ e.uid := fun h => hn.1 (Or.inr (Or.inr (Or.inr (Or.inl h))))
  have hbc : b.uid ≠ c.uid := fun h => hn.2.1 (Or.inl h)
  have hbd : b.uid ≠ d.uid := fun h => hn.2.1 (Or.inr (Or.inl h))
  have hbe : b.uid ≠ e.uid := fun h => hn.2.1 (Or.inr (Or.inr (Or.inl h)))
  have hcd : c.uid ≠ d.uid := fun h => hn.2.2.1 (Or.inl h)
  have hce : c.uid ≠ e.uid := fun h => hn.2.2.1 (Or.inr (Or.inl h))
  have hde : d.uid ≠ e.uid := fun h => hn.2.2.2.1 (Or.inl h)
  have hpool : paramsFromStack [s1.parameters, s2.parameters] = [a, b, c, d, e] := by
    simp [paramsFromStack, hP1, hP2, beq_iff_eq, hab, hac, had, hae, hbc, hbd, hbe,
      hcd, hce, hde]
  have hidx1 : subIndices (covarianceInit [a, b, c, d, e]) s1 = [0, 1] := by
    simp [subIndices, hP1, paramIndex, covarianceInit, List.findIdx_cons, cond_eq_if,
      beq_iff_eq, hab]
  have hidx2 : subIndices (set_subcovariance (covarianceInit [a, b, c, d, e]) s1) s2 =
      [2, 3, 4] := by
    simp [subIndices, hP2, paramIndex, set_subcovariance_params, covarianceInit,
      List.findIdx_cons, cond_eq_if, beq_iff_eq, hac, hbc, had, hbd, hcd, hae, hbe, hce,
      hde]
  have hm2 : ∀ k : Nat, k ∈ ([0, 1] : List Nat) ↔ k < 2 := by
    intro k; simp; omega
  have hm3 : ∀ k : Nat, k ∈ ([2, 3, 4] : List Nat) ↔ (2 ≤ k ∧ k < 5) := by
    intro k; simp; omega
  have hio1 : ∀ k : Nat, k < 2 → List.indexOf k [0, 1] = k := by
    intro k hk; interval_cases k <;> simp [List.indexOf_cons]
  have hio2 : ∀ k : Nat, 2 ≤ k → k < 5 → List.indexOf k [2, 3, 4] = k - 2 := by
    intro k hk1 hk2; interval_cases k <;> simp [List.indexOf_cons]
  have hM1_block : ∀ i j, i < 2 → j < 2 →
      (set_subcovariance (covarianceInit [a, b, c, d, e]) s1).data i j = s1.data i j := by
    intro i j hi hj
    rw [set_subcovariance_data, hidx1, if_pos ⟨(hm2 i).mpr hi, (hm2 j).mpr hj⟩,
      hio1 i hi, hio1 j hj]
  have hM1_off : ∀ i j, i < 5 → j < 5 → ¬(i < 2 ∧ j < 2) → (i < 2 ∨ j < 2) →
      (set_subcovariance (covarianceInit [a, b, c, d, e]) s1).data i j = 0 := by
    intro i j h5i h5j hnb hor
    rw [set_subcovariance_data, hidx1,
      if_neg (fun hcon => hnb ⟨(hm2 i).mp hcon.1, (hm2 j).mp hcon.2⟩)]
    have hne : i ≠ j := by omega
    cases hcl : subBlockClose (covarianceInit [a, b, c, d, e]) s1
    · rw [if_neg (by simp)]
      have hmem : i ∈ ([0, 1] : List Nat) ∨ j ∈ ([0, 1] : List Nat) := by
        rcases hor with h | h
        · exact Or.inl ((hm2 i).mpr h)
        · exact Or.inr ((hm2 j).mpr h)
      rw [if_pos hmem]
    · rw [if_pos rfl]
      simp [covarianceInit, hne]
  refine ⟨rfl, ?_, ?_⟩
  · simp only [covarianceFromStack, List.map_cons, List.map_nil, List.foldl_cons,
      List.foldl_nil, set_subcovariance_params]
    have hcp : (covarianceInit (paramsFromStack [s1.parameters, s2.parameters])).parameters =
        paramsFromStack [s1.parameters, s2.parameters] := rfl
    rw [hcp, hpool, hP1, hP2]
    rfl
  · intro i j hi hj
    simp only [covarianceFromStack, List.map_cons, List.map_nil, List.foldl_cons,
      List.foldl_nil, hpool]
    rw [set_subcovariance_data, hidx2]
    by_cases hblk : 2 ≤ i ∧ 2 ≤ j
    · rw [if_pos ⟨(hm3 i).mpr ⟨hblk.1, hi⟩, (hm3 j).mpr ⟨hblk.2, hj⟩⟩,
        hio2 i hblk.1 hi, hio2 j hblk.2 hj, if_neg (by omega), if_pos hblk]
    · rw [if_neg (fun hcon => hblk ⟨((hm3 i).mp hcon.1).1, ((hm3 j).mp hcon.2).1⟩)]
      by_cases hb2 : i < 2 ∧ j < 2
      · cases hcl2 : subBlockClose (set_subcovariance (covarianceInit [a, b, c, d, e]) s1) s2
        · rw [if_neg (by simp),
            if_neg (fun hcon => by
              rcases hcon with h | h
              · exact absurd ((hm3 i).mp h).1 (by omega)
              · exact absurd ((hm3 j).mp h).1 (by omega)),
            hM1_block i j hb2.1 hb2.2, if_pos hb2]
        · rw [if_pos rfl, hM1_block i j hb2.1 hb2.2, if_pos hb2]
      · have hor : i < 2 ∨ j < 2 := by omega
        have hrhs : (if i < 2 ∧ j < 2 then s1.data i j
            else if 2 ≤ i ∧ 2 ≤ j then s2.data (i - 2) (j - 2) else 0) = 0 := by
          rw [if_neg hb2, if_neg hblk]
        rw [hrhs]
        cases hcl2 : subBlockClose (set_subcovariance (covarianceInit [a, b, c, d, e]) s1) s2
        · rw [if_neg (by simp)]
          have hmem : i ∈ ([2, 3, 4] : List Nat) ∨ j ∈ ([2, 3, 4] : List Nat) := by
            by_cases h2i : 2 ≤ i
            · exact Or.inl ((hm3 i).mpr ⟨h2i, hi⟩)
            · have : 2 ≤ j := by omega
              exact Or.inr ((hm3 j).mpr ⟨this, hj⟩)
          rw [if_pos hmem]
        · rw [if_pos rfl]
          exact hM1_off i j hi hj hb2 hor

theorem C5_from_stack_amended_witness :
    s1W5.parameters.length = 2 ∧ s2W5.parameters.length = 3 ∧
    ((s1W5.parameters ++ s2W5.parameters).map Param.uid).Nodup ∧
    (∀ i j, i < 5 → j < 5 →
      (covarianceFromStack [s1W5, s2W5]).data i j =
        if i < 2 ∧ j < 2 then s1W5.data i j
        else if 2 ≤ i ∧ 2 ≤ j then s2W5.data (i - 2) (j - 2)
        else 0) :=
  ⟨by decide, by decide, by decide,
    (C5_from_stack_amended s1W5 s2W5 (by decide) (by decide) (by decide)).2.2⟩

theorem fillRow_false (cols : List Bool) (rav : List ℚ) :
    fillRow false cols rav = (List.replicate cols.length 0, rav) := by
  induction cols generalizing rav with
  | nil => rfl
  | cons c cs ih => simp [fillRow, ih, List.replicate_succ]

theorem fillRow_true_snd (cols : List Bool) (rav : List ℚ) :
    (fillRow true cols rav).2 = rav.drop (cols.count true) := by
  induction cols generalizing rav with
  | nil => rfl
  | cons c cs ih =>
    cases c with
    | false => simpa [fillRow, List.count_cons] using ih rav
    | true =>
      have hdt : rav.tail.drop (cs.count true) = rav.drop (1 + cs.count true) := by
        rw [← List.drop_one, List.drop_drop]
      simp [fillRow, List.count_cons, ih, hdt, Nat.add_comm]

theorem getD_tail_succ (rav : List ℚ) (k : Nat) : rav.getD (k + 1) 0 = rav.tail.getD k 0 := by
  cases rav <;> simp

theorem fillRow_true_getD (cols : List Bool) :
    ∀ (rav : List ℚ) (j : Nat), j < cols.length →
      (fillRow true cols rav).1.getD j 0 =
        if cols.getD j false then rav.getD ((cols.take j).count true) 0 else 0 := by
  induction cols with
  | nil => intro rav j hj; simp at hj
  | cons c cs ih =>
    intro rav j hj
    cases j with
    | zero =>
      cases c with
      | false => simp [fillRow]
      | true =>
        simp only [fillRow, Bool.true_and, if_true, List.getD_cons_zero, List.take_zero,
          List.count_nil]
        cases rav <;> simp
    | succ j' =>
      have hj' : j' < cs.length := by simpa using hj
      cases c with
      | false =>
        simpa [fillRow, List.count_cons] using ih rav j' hj'
      | true =>
        have hstep := ih rav.tail j' hj'
        simp only [fillRow, Bool.true_and, if_true, List.getD_cons_succ, List.take_succ_cons,
          List.count_cons]
        rw [hstep]
        by_cases hc : cs.getD j' false
        · rw [if_pos hc, if_pos hc]
          simp only [beq_self_eq_true, if_true]
          rw [getD_tail_succ]
        · rw [if_neg hc, if_neg hc]

theorem fillRows_getD (cols : List Bool) :
    ∀ (frs : List Bool) (rav : List ℚ) (i : Nat), i < frs.length →
      (fillRows frs cols rav).getD i [] =
        if frs.getD i false then
          (fillRow true cols (rav.drop (((frs.take i).count true) * cols.count true))).1
        else List.replicate cols.length 0 := by
  intro frs
  induction frs with
  | nil => intro rav i hi; simp at hi
  | cons fr frs ih =>
    intro rav i hi
    cases i with
    | zero =>
      cases fr with
      | false => simp [fillRows, fillRow_false]
      | true => simp [fillRows]
    | succ i' =>
      have hi' : i' < frs.length := by simpa using hi
      cases fr with
      | false =>
        have hpr : (fillRow false cols rav).2 = rav := by rw [fillRow_false]
        simp only [fillRows, List.getD_cons_succ, hpr, List.take_succ_cons,
          List.count_cons, List.getD_cons_succ]
        rw [ih rav i' hi']
        simp
      | true =>
        simp only [fillRows, List.getD_cons_succ, fillRow_true_snd, List.take_succ_cons,
          List.count_cons]
        rw [ih _ i' hi', List.drop_drop]
        have harith : cols.count true + (frs.take i').count true * cols.count true =
            ((frs.take i').count true + if (true == true) = true then 1 else 0) * cols.count true := by
          simp [Nat.succ_mul, Nat.add_comm]
        rw [harith]

theorem count_take_lt (l : List Bool) (i : Nat) (hi : i < l.length)
    (ht : l.getD i false = true) :
    (l.take i).count true < l.count true := by
  conv_rhs => rw [← List.take_append_drop i l]
  rw [List.count_append]
  have hdrop : l.drop i = l[i] :: l.drop (i + 1) := List.drop_eq_getElem_cons hi
  have hgi : l[i] = true := by rw [← List.getD_eq_getElem l false hi]; exact ht
  rw [hdrop, hgi, List.count_cons]
  simp

theorem flatten_drop_uniform (w : Nat) :
    ∀ (M : List (List ℚ)), (∀ r ∈ M, r.length = w) → ∀ (k : Nat),
      M.flatten.drop (k * w) = (M.drop k).flatten := by
  intro M
  induction M with
  | nil => intro _ k; simp
  | cons row rest ih =>
    intro hw k
    cases k with
    | zero => simp
    | succ k' =>
      have hrow : row.length = w := hw row (by simp)
      rw [List.flatten_cons]
      have h1 : (k' + 1) * w = row.length + k' * w := by rw [hrow]; ring
      rw [h1, List.drop_append]
      exact ih (fun r hr => hw r (by simp [hr])) k'

theorem getD_replicate_zero (n j : Nat) : (List.replicate n (0 : ℚ)).getD j 0 = 0 := by
  induction n generalizing j with
  | zero => simp
  | succ n ih =>
    cases j with
    | zero => simp [List.replicate_succ]
    | succ j' => simp [List.replicate_succ, List.getD_cons_succ, ih]

theorem freeFlags_length (parameters : List Param) :
    (freeFlags parameters).length = parameters.length := by
  simp [freeFlags]

theorem freeFlags_getD (parameters : List Param) (i : Nat) (hi : i < parameters.length) :
    (freeFlags parameters).getD i false = !(parameters.getD i default).frozen := by
  rw [List.getD_eq_getElem _ _ (by rw [freeFlags_length]; exact hi),
    List.getD_eq_getElem _ _ hi]
  simp [freeFlags]

theorem expand_entry (parameters : List Param) (M : List (List ℚ)) (i j : Nat)
    (hi : i < parameters.length) (hj : j < parameters.length)
    (hM : M.length = nFree parameters) (hrow : ∀ r ∈ M, r.length = nFree parameters) :
    ((expand_factor_matrix M parameters).getD i []).getD j 0 =
      if (freeFlags parameters).getD i false = true ∧ (freeFlags parameters).getD j false = true
      then (M.getD (freeRank parameters i) []).getD (freeRank parameters j) 0
      else 0 := by
  have hfi' : i < (freeFlags parameters).length := by rw [freeFlags_length]; exact hi
  have hfj' : j < (freeFlags parameters).length := by rw [freeFlags_length]; exact hj
  rw [expand_factor_matrix, fillRows_getD _ _ _ i hfi']
  by_cases hfi : (freeFlags parameters).getD i false = true
  · rw [if_pos hfi, fillRow_true_getD _ _ j hfj']
    by_cases hfj : (freeFlags parameters).getD j false = true
    · rw [if_pos hfj, if_pos ⟨hfi, hfj⟩]
      have e1 : List.count true (List.take i (freeFlags parameters)) =
          freeRank parameters i := rfl
      have e2 : List.count true (List.take j (freeFlags parameters)) =
          freeRank parameters j := rfl
      have e3 : List.count true (freeFlags parameters) = nFree parameters := rfl
      rw [e1, e2, e3]
      rw [flatten_drop_uniform (nFree parameters) M hrow (freeRank parameters i)]
      have hki : freeRank parameters i < M.length := by
        rw [hM]; exact count_take_lt _ _ hfi' hfi
      have hkj : freeRank parameters j < nFree parameters :=
        count_take_lt _ _ hfj' hfj
      rw [List.drop_eq_getElem_cons hki, List.flatten_cons]
      have hrj : freeRank parameters j < (M[freeRank parameters i]).length := by
        rw [hrow _ (List.getElem_mem hki)]; exact hkj
      rw [List.getD_append _ _ _ _ hrj, List.getD_eq_getElem M [] hki]
    · rw [if_neg hfj, if_neg (fun hc => hfj hc.2)]
  · rw [if_neg hfi, if_neg (fun hc => hfi hc.1)]
    exact getD_replicate_zero _ _

/-- C4: `from_factor_matrix(parameters, matrix)` returns a covariance
whose data is the elementwise product of the outer product of the
parameter scales with the matrix itself when it is `N×N`, and otherwise
with its expansion, which places the reduced matrix's entries at index
pairs of free parameters (by free-rank) and zeros at every position
whose row or column parameter is frozen. -/
theorem C4_from_factor_matrix (parameters : List Param) (M : List (List ℚ)) :
    ((M.length = parameters.length ∧ ∀ r ∈ M, r.length = parameters.length) →
      ∀ i j, (from_factor_matrix parameters M).data i j =
        (parameters.getD i default).scale * (parameters.getD j default).scale *
          ((M.getD i []).getD j 0)) ∧
    (¬(M.length = parameters.length ∧ ∀ r ∈ M, r.length = parameters.length) →
      M.length = nFree parameters →
      (∀ r ∈ M, r.length = nFree parameters) →
      ∀ i j, i < parameters.length → j < parameters.length →
        (from_factor_matrix parameters M).data i j =
          (parameters.getD i default).scale * (parameters.getD j default).scale *
            (if (parameters.getD i default).frozen = false ∧
                (parameters.getD j default).frozen = false
             then (M.getD (freeRank parameters i) []).getD (freeRank parameters j) 0
             else 0)) := by
  constructor
  · intro h i j
    have hcond : M.length = parameters.length ∧
        M.all (fun r => decide (r.length = parameters.length)) = true :=
      ⟨h.1, List.all_eq_true.mpr (fun r hr => decide_eq_true (h.2 r hr))⟩
    simp only [from_factor_matrix]
    rw [if_pos hcond]
  · intro hnot hM hrow i j hi hj
    have hcond : ¬(M.length = parameters.length ∧
        M.all (fun r => decide (r.length = parameters.length)) = true) := by
      intro hc
      exact hnot ⟨hc.1, fun r hr => of_decide_eq_true (List.all_eq_true.mp hc.2 r hr)⟩
    simp only [from_factor_matrix]
    rw [if_neg hcond, expand_entry parameters M i j hi hj hM hrow,
      freeFlags_getD _ _ hi, freeFlags_getD _ _ hj]
    simp only [Bool.not_eq_true']

theorem C4_from_factor_matrix_witness :
    (¬(mW4.length = pW4.length ∧ ∀ r ∈ mW4, r.length = pW4.length)) ∧
    mW4.length = nFree pW4 ∧ (∀ r ∈ mW4, r.length = nFree pW4) ∧
    (∀ i j, i < pW4.length → j < pW4.length →
      (from_factor_matrix pW4 mW4).data i j =
        (pW4.getD i default).scale * (pW4.getD j default).scale *
          (if (pW4.getD i default).frozen = false ∧ (pW4.getD j default).frozen = false
           then (mW4.getD (freeRank pW4 i) []).getD (freeRank pW4 j) 0
           else 0)) :=
  ⟨by decide, by decide, by decide,
    (C4_from_factor_matrix pW4 mW4).2 (by decide) (by decide) (by decide)⟩

theorem sqrt_cast_eq_zero_iff (x : ℚ) (hx : 0 ≤ x) :
    Real.sqrt (x : ℝ) = 0 ↔ x = 0 := by
  rw [Real.sqrt_eq_zero']
  constructor
  · intro h
    have h2 : x ≤ 0 := by exact_mod_cast h
    exact le_antisymm h2 hx
  · intro h; rw [h]; norm_num

/-- C8 (amended): `correlation` divides each entry by the product of
the square roots of the diagonal entries; a NaN division (zero
numerator, zero denominator) is replaced by 0, but an infinite division
(nonzero numerator, zero denominator) is replaced by `np.nan_to_num`'s
`±maxFloat64`, not by 0; the denominator vanishes exactly at the rows
and columns of zero-variance parameters, and the diagonal is 1 wherever
the variance is positive and 0 wherever it is zero. -/
theorem C8_correlation_amended (c : CovarianceM) (i j : Nat)
    (hi : 0 ≤ c.data i i) (hj : 0 ≤ c.data j j) :
    (Real.sqrt (c.data i i) * Real.sqrt (c.data j j) = 0 ↔
      c.data i i = 0 ∨ c.data j j = 0) ∧
    (Real.sqrt (c.data i i) * Real.sqrt (c.data j j) = 0 → c.data i j = 0 →
      correlation c i j = 0) ∧
    (Real.sqrt (c.data i i) * Real.sqrt (c.data j j) = 0 → 0 < c.data i j →
      correlation c i j = maxFloat64) ∧
    (Real.sqrt (c.data i i) * Real.sqrt (c.data j j) = 0 → c.data i j < 0 →
      correlation c i j = -maxFloat64) ∧
    (Real.sqrt (c.data i i) * Real.sqrt (c.data j j) ≠ 0 →
      correlation c i j =
        (c.data i j : ℝ) / (Real.sqrt (c.data i i) * Real.sqrt (c.data j j))) ∧
    (0 < c.data i i → correlation c i i = 1) ∧
    (c.data i i = 0 → correlation c i i = 0) := by
  refine ⟨?_, ?_, ?_, ?_, ?_, ?_, ?_⟩
  · rw [mul_eq_zero, sqrt_cast_eq_zero_iff _ hi, sqrt_cast_eq_zero_iff _ hj]
  · intro hden hnum
    have hnum' : (c.data i j : ℝ) = 0 := by exact_mod_cast hnum
    simp only [correlation, divNanToNum]
    rw [if_pos hden, if_pos hnum']
  · intro hden hnum
    have hnum' : ¬((c.data i j : ℝ) = 0) := by
      intro h; have : c.data i j = 0 := by exact_mod_cast h
      exact absurd this (ne_of_gt hnum)
    have hpos : (0 : ℝ) < (c.data i j : ℝ) := by exact_mod_cast hnum
    simp only [correlation, divNanToNum]
    rw [if_pos hden, if_neg hnum', if_pos hpos]
  · intro hden hnum
    have hnum' : ¬((c.data i j : ℝ) = 0) := by
      intro h; have : c.data i j = 0 := by exact_mod_cast h
      exact absurd this (ne_of_lt hnum)
    have hneg : ¬((0 : ℝ) < (c.data i j : ℝ)) := by
      have : (c.data i j : ℝ) < 0 := by exact_mod_cast hnum
      exact not_lt.mpr (le_of_lt this)
    simp only [correlation, divNanToNum]
    rw [if_pos hden, if_neg hnum', if_neg hneg]
  · intro hden
    simp only [correlation, divNanToNum]
    rw [if_neg hden]
  · intro hpos
    have hx : (0 : ℝ) ≤ (c.data i i : ℝ) := by exact_mod_cast hi
    have hden : Real.sqrt (c.data i i) * Real.sqrt (c.data i i) = (c.data i i : ℝ) :=
      Real.mul_self_sqrt hx
    have hne : ((c.data i i : ℝ)) ≠ 0 := by
      have : (0 : ℝ) < (c.data i i : ℝ) := by exact_mod_cast hpos
      exact ne_of_gt this
    simp only [correlation, divNanToNum]
    rw [hden, if_neg hne]
    exact div_self hne
  · intro hz
    have hz' : (c.data i i : ℝ) = 0 := by exact_mod_cast hz
    simp only [correlation, divNanToNum]
    rw [hz', Real.sqrt_zero]
    norm_num

/-- C8 counterexample: in `cE8` the (0,1) entry's division is a nonzero
numerator over a zero denominator (an IEEE infinity), yet the resulting
correlation entry is `maxFloat64`, not 0 — refuting the claim that
every NaN/inf division is replaced by 0. -/
theorem C8_counterexample_inf_not_zero :
    cE8.data 0 1 = 1 ∧
    Real.sqrt (cE8.data 0 0) * Real.sqrt (cE8.data 1 1) = 0 ∧
    correlation cE8 0 1 = maxFloat64 ∧
    maxFloat64 ≠ 0 := by
  have h00 : cE8.data 0 0 = 0 := rfl
  have h01 : cE8.data 0 1 = 1 := rfl
  have hden : Real.sqrt (cE8.data 0 0) * Real.sqrt (cE8.data 1 1) = 0 := by
    rw [h00]; norm_num
  have hmaxpos : (0 : ℝ) < maxFloat64 := by norm_num [maxFloat64]
  have hnum1 : (cE8.data 0 1 : ℝ) = 1 := by rw [h01]; norm_num
  refine ⟨h01, hden, ?_, ne_of_gt hmaxpos⟩
  simp only [correlation, divNanToNum]
  rw [if_pos hden, if_neg (by rw [hnum1]; norm_num), if_pos (by rw [hnum1]; norm_num)]

theorem C8_correlation_amended_witness :
    (0 ≤ cW8.data 0 0) ∧ (0 ≤ cW8.data 1 1) ∧
    (0 < cW8.data 0 0 → correlation cW8 0 0 = 1) ∧
    (cW8.data 1 1 = 0 → correlation cW8 1 1 = 0) :=
  ⟨by norm_num [cW8], by norm_num [cW8],
    (C8_correlation_amended cW8 0 1 (by norm_num [cW8]) (by norm_num [cW8])).2.2.2.2.2.1,
    (C8_correlation_amended cW8 1 0 (by norm_num [cW8]) (by norm_num [cW8])).2.2.2.2.2.2⟩
